import Mathlib

set_option maxHeartbeats 1000000

/-!
Verification of the revocable synchronisation cell from
`rust/kernel/sync/revocable.rs` and the `genmask` helper from
`rust/kernel/bits.rs`.

Embedding conventions:

* `MaybeUninit<T>` is modelled as `Option T`: `some v` means the storage holds
  an initialised value `v`, `none` means it is uninitialised.  The `unsafe`
  operations on it (`assume_init_drop`, the raw reads behind the guard's
  `Deref`/`DerefMut`) become `Option`-valued functions where `none` models
  undefined behaviour.
* `Inner<T>` (the lock-protected state) is a structure with the source's two
  fields.  All mutation in the source happens inside one critical section of
  the single lock, so the sequential operations (`Inner::new`,
  `Inner::drop_in_place`, `Revocable::revoke`, `Revocable::try_write`) are
  embedded as pure state transformers on `Inner T`.  `drop_in_place` also
  reports whether the destructor of `T` was run, so that destruction can be
  counted.  `Revocable::try_write` returns the protected state as it is left
  when the lock is eventually released (the source writes nothing through it)
  together with the optional guard.
* The concurrency claims are settled over a small labelled transition system
  `Step` on `SysState`: the lock-protected `Inner` plus the identity of the
  thread currently holding the lock through a live `RevocableGuard`, if any.
  Each constructor is one critical section (or one action performed while the
  guard already holds the lock); acquiring steps fire only when the lock is
  free, which embeds the exclusive-lock contract of `Lock`/`Guard` that the
  source delegates to (`self.inner.lock()` blocks until exclusive access).
* `u32` arithmetic in `genmask` is embedded on `Nat` with explicit `% 2 ^ 32`
  where Rust would truncate, and a fully checked variant `genmaskChecked`
  returns `none` exactly where Rust const evaluation of the expression panics
  (shift amount out of range, overflowing `-`/`+`).
-/

namespace Kernel

/-- The state within the revocable synchronisation primitive
(`struct Inner<T>` in the source).  `data : MaybeUninit<T>` is modelled as
`Option T`, `some` meaning initialised. -/
structure Inner (T : Type) where
  is_available : Bool
  data : Option T
deriving DecidableEq

/-- `MaybeUninit::assume_init_drop`: runs the destructor of the contained
value.  `none` models undefined behaviour: the storage was not initialised. -/
def assume_init_drop {T : Type} (d : Option T) : Option Unit :=
  match d with
  | some _ => some ()
  | none => none

/-- `Inner::new`: the cell starts available, with `data` initialised to the
given value. -/
def Inner.new {T : Type} (data : T) : Inner T :=
  { is_available := true, data := some data }

/-- `Inner::drop_in_place`: if the value was already dropped, return
immediately; otherwise clear `is_available` and drop `data` in place.
The second component reports whether the destructor of `T` was run. -/
def Inner.drop_in_place {T : Type} (s : Inner T) : Inner T × Bool :=
  if !s.is_available then
    (s, false)
  else
    ({ is_available := false, data := none }, true)

/-- `Inner::drop_in_place` with the `unsafe { self.data.assume_init_drop() }`
call checked: the result is `none` when that call would be undefined
behaviour, i.e. when the availability branch is taken but `data` is not
initialised. -/
def Inner.dropInPlaceChecked {T : Type} (s : Inner T) : Option (Inner T × Bool) :=
  if !s.is_available then
    some (s, false)
  else
    match assume_init_drop s.data with
    | some _ => some ({ is_available := false, data := none }, true)
    | none => none

/-- The type invariant stated on `Inner<T>` in the source: the `is_available`
field determines whether `data` is initialised. -/
def Inner.inv {T : Type} (s : Inner T) : Prop :=
  s.is_available = true ↔ s.data.isSome = true

/-- `RevocableGuard`: wraps the lock guard, i.e. exclusive access to the
locked `Inner` state for the critical section it represents. -/
structure RevocableGuard (T : Type) where
  guard : Inner T
deriving DecidableEq

/-- `RevocableGuard::deref`: the raw read `&*self.guard.data.as_ptr()`.
`none` models undefined behaviour (reading uninitialised storage). -/
def RevocableGuard.deref {T : Type} (g : RevocableGuard T) : Option T :=
  g.guard.data

/-- Writing through `RevocableGuard::deref_mut` replaces the pointed-to value;
it can only change the contents of initialised storage, never whether the
storage is initialised or available. -/
def RevocableGuard.write {T : Type} (g : RevocableGuard T) (v : T) : RevocableGuard T :=
  ⟨{ is_available := g.guard.is_available, data := g.guard.data.map (fun _ => v) }⟩

namespace Revocable

/-- `Revocable::revoke`: acquire the lock and `drop_in_place` the state.
First component: the state after the critical section; second: whether the
destructor of `T` was run. -/
def revoke {T : Type} (s : Inner T) : Inner T × Bool :=
  s.drop_in_place

/-- `Revocable::try_write`: acquire the lock; return `none` if the value is
unavailable, otherwise a guard holding the locked state.  The first component
is the protected state as left when the lock is released again (the operation
itself writes nothing). -/
def try_write {T : Type} (s : Inner T) : Inner T × Option (RevocableGuard T) :=
  if !s.is_available then
    (s, none)
  else
    (s, some ⟨s⟩)

end Revocable

/-- A whole-system state for the interleaving semantics: the lock-protected
`Inner` together with the thread (if any) currently holding the lock through a
live `RevocableGuard`. -/
structure SysState (T : Type) where
  inner : Inner T
  holder : Option Nat
deriving DecidableEq

/-- One serialized step of the system.  Lock-acquiring operations
(`try_write`, `revoke`) fire only when no guard holds the lock, embedding the
exclusive-lock contract the source delegates to; `revoke` is a single
constructor because it holds the lock for its whole critical section. -/
inductive Step {T : Type} : SysState T → SysState T → Prop
  | try_write_some (t : Nat) (s : SysState T) :
      s.holder = none → s.inner.is_available = true →
      Step s ⟨s.inner, some t⟩
  | try_write_none (t : Nat) (s : SysState T) :
      s.holder = none → s.inner.is_available = false →
      Step s s
  | guard_deref (t : Nat) (s : SysState T) :
      s.holder = some t →
      Step s s
  | guard_write (t : Nat) (v : T) (s : SysState T) :
      s.holder = some t →
      Step s ⟨⟨s.inner.is_available, s.inner.data.map (fun _ => v)⟩, s.holder⟩
  | guard_drop (t : Nat) (s : SysState T) :
      s.holder = some t →
      Step s ⟨s.inner, none⟩
  | revoke (t : Nat) (s : SysState T) :
      s.holder = none →
      Step s ⟨(Inner.drop_in_place s.inner).1, none⟩

/-- Reflexive-transitive closure of `Step` from a given initial state. -/
inductive Reachable {T : Type} (init : SysState T) : SysState T → Prop
  | refl : Reachable init init
  | step {s s' : SysState T} : Reachable init s → Step s s' → Reachable init s'

/-- Inductive invariant of the system: the type invariant of `Inner` holds,
and whenever some thread holds a guard the value is still available. -/
def SysState.good {T : Type} (s : SysState T) : Prop :=
  (s.inner.is_available = true ↔ s.inner.data.isSome = true) ∧
  (∀ t : Nat, s.holder = some t → s.inner.is_available = true)

/-- `!0u32`. -/
def u32Max : Nat := 2 ^ 32 - 1

/-- `genmask` from `rust/kernel/bits.rs`:
`((!0u32) - (1 << l) + 1) & ((!0u32) >> (32 - 1 - h))`, in exact arithmetic.
Both subtractions and the addition stay in `u32` range whenever the shift
amounts do, so no `% 2 ^ 32` is needed here; `genmaskChecked` accounts for the
panicking cases. -/
def genmask (h l : Nat) : Nat :=
  (u32Max - (1 <<< l) + 1) &&& (u32Max >>> (32 - 1 - h))

/-- Checked `u32` left shift: Rust panics when the shift amount is ≥ 32; the
result is truncated to 32 bits. -/
def shlChecked (a s : Nat) : Option Nat :=
  if 32 ≤ s then none else some ((a <<< s) % 2 ^ 32)

/-- Checked `u32` subtraction: Rust panics on underflow. -/
def subChecked (a b : Nat) : Option Nat :=
  if a < b then none else some (a - b)

/-- Checked `u32` addition: Rust panics on overflow. -/
def addChecked (a b : Nat) : Option Nat :=
  if 2 ^ 32 ≤ a + b then none else some (a + b)

/-- Checked `u32` right shift: Rust panics when the shift amount is ≥ 32. -/
def shrChecked (a s : Nat) : Option Nat :=
  if 32 ≤ s then none else some (a >>> s)

/-- `genmask` with every arithmetic step of the Rust expression checked, in
source evaluation order: `none` models a panic (or failed const evaluation). -/
def genmaskChecked (h l : Nat) : Option Nat :=
  (shlChecked 1 l).bind fun x =>
    (subChecked u32Max x).bind fun y =>
      (addChecked y 1).bind fun z =>
        (subChecked (32 - 1) h).bind fun w =>
          (shrChecked u32Max w).bind fun m =>
            some (z &&& m)


/-! ### Helper lemmas -/

theorem good_init {T : Type} (v : T) : (SysState.mk (Inner.new v) none).good := by
  constructor
  · simp [Inner.new]
  · intro t ht
    simp at ht

theorem good_step {T : Type} {s s' : SysState T} (hg : s.good) (hs : Step s s') :
    s'.good := by
  obtain ⟨hinv, hhold⟩ := hg
  cases hs
  case try_write_some t hn ha => exact ⟨hinv, fun u _ => ha⟩
  case try_write_none t hn ha => exact ⟨hinv, hhold⟩
  case guard_deref t ht => exact ⟨hinv, hhold⟩
  case guard_write t v ht =>
    refine ⟨by simpa using hinv, fun u hu => hhold t ht⟩
  case guard_drop t ht =>
    exact ⟨hinv, fun u hu => by simp at hu⟩
  case revoke t hn =>
    refine ⟨?_, fun u hu => by simp at hu⟩
    by_cases hb : s.inner.is_available = true <;>
      simp_all [Inner.drop_in_place]

theorem reachable_good {T : Type} {v : T} {s : SysState T}
    (h : Reachable (SysState.mk (Inner.new v) none) s) : s.good := by
  induction h with
  | refl => exact good_init v
  | step hr hs ih => exact good_step ih hs

theorem destroy_requires_lock_free {T : Type} {s s' : SysState T} (hs : Step s s')
    (hlive : s.inner.data.isSome = true) (hdead : s'.inner.data.isSome = false) :
    s.holder = none := by
  cases hs <;> first | assumption | (exfalso; simp_all)

/-! ### Claim theorems -/

/-- Claim C1: over every interleaving (every reachable state of the serialized
transition system), a thread holding a live guard always finds the value
available and its dereference initialised (never a revoked value), and any
step that destroys the contained value can only fire when no guard holds the
lock: revoke cannot complete until every outstanding guard has been dropped. -/
theorem no_use_after_revoke {T : Type} (v : T) :
    (∀ (s : SysState T) (t : Nat),
        Reachable (SysState.mk (Inner.new v) none) s → s.holder = some t →
        s.inner.is_available = true ∧
        (RevocableGuard.mk s.inner).deref.isSome = true) ∧
    (∀ s s' : SysState T, Step s s' →
        s.inner.data.isSome = true → s'.inner.data.isSome = false →
        s.holder = none) := by
  constructor
  · intro s t hr hh
    have hg := reachable_good hr
    have ha := hg.2 t hh
    exact ⟨ha, by simpa [RevocableGuard.deref] using hg.1.mp ha⟩
  · intro s s' hs h1 h2
    exact destroy_requires_lock_free hs h1 h2

/-- Witness for C1: after one `try_write` step from a fresh cell holding 42,
thread 0 holds a guard, the value is available and the dereference is live. -/
theorem no_use_after_revoke_witness :
    (SysState.mk (Inner.new (42 : Nat)) (some 0)).inner.is_available = true ∧
    (RevocableGuard.mk
        (SysState.mk (Inner.new (42 : Nat)) (some 0)).inner).deref.isSome = true :=
  (no_use_after_revoke 42).1 (SysState.mk (Inner.new 42) (some 0)) 0
    (Reachable.step Reachable.refl
      (Step.try_write_some 0 (SysState.mk (Inner.new 42) none) rfl rfl))
    rfl

/-- Claim C2: the first revoke on a fresh cell runs the destructor and marks
the cell unavailable; after any revoke, every further revoke is a no-op that
leaves the state unchanged and does not run the destructor again, so two
sequential revokes destroy the value exactly once. -/
theorem double_revoke_destroys_once {T : Type} :
    (∀ v : T,
      (Revocable.revoke (Inner.new v)).2 = true ∧
      ((Revocable.revoke (Inner.new v)).1).is_available = false ∧
      Revocable.revoke ((Revocable.revoke (Inner.new v)).1) =
        ((Revocable.revoke (Inner.new v)).1, false)) ∧
    (∀ s : Inner T,
      Revocable.revoke ((Revocable.revoke s).1) = ((Revocable.revoke s).1, false)) := by
  constructor
  · intro v
    exact ⟨rfl, rfl, rfl⟩
  · intro s
    by_cases hb : s.is_available = true <;>
      simp [Revocable.revoke, Inner.drop_in_place, hb]

/-- Claim C3: a revoked cell is unavailable, and `try_write` on an unavailable
cell returns `none` and leaves the state unchanged, so after `revoke` returns
every subsequent `try_write` returns `none`, never a guard. -/
theorem try_write_after_revoke {T : Type} :
    (∀ s : Inner T, ((Revocable.revoke s).1).is_available = false) ∧
    (∀ s : Inner T, s.is_available = false → Revocable.try_write s = (s, none)) := by
  constructor
  · intro s
    by_cases hb : s.is_available = true <;>
      simp_all [Revocable.revoke, Inner.drop_in_place]
  · intro s hf
    simp [Revocable.try_write, hf]

/-- Witness for C3: revoking a fresh cell holding 42 and then calling
`try_write` yields `none` with the state untouched. -/
theorem try_write_after_revoke_witness :
    Revocable.try_write ((Revocable.revoke (Inner.new (42 : Nat))).1) =
      ((Revocable.revoke (Inner.new (42 : Nat))).1, none) :=
  (try_write_after_revoke (T := Nat)).2 ((Revocable.revoke (Inner.new 42)).1) rfl

/-- Claim C4: the invariant `is_available = true ↔ data initialised` holds
after `Inner::new` and is preserved by `drop_in_place` (used by both `revoke`
and the cell destructor), by `try_write` — on the state it leaves behind and
on the state wrapped by any guard it returns — and by writing through a
guard. -/
theorem inv_preserved {T : Type} :
    (∀ v : T, (Inner.new v).inv) ∧
    (∀ s : Inner T, s.inv → ((s.drop_in_place).1).inv) ∧
    (∀ s : Inner T, s.inv →
      ((Revocable.try_write s).1).inv ∧
      ∀ g : RevocableGuard T, (Revocable.try_write s).2 = some g → g.guard.inv) ∧
    (∀ (g : RevocableGuard T) (v : T), g.guard.inv → ((g.write v).guard).inv) := by
  refine ⟨?_, ?_, ?_, ?_⟩
  · intro v
    simp [Inner.new, Inner.inv]
  · intro s hs
    by_cases hb : s.is_available = true <;>
      simp_all [Inner.drop_in_place, Inner.inv]
  · intro s hs
    constructor
    · by_cases hb : s.is_available = true <;>
        simp_all [Revocable.try_write]
    · intro g hg
      by_cases hb : s.is_available = true <;>
        simp [Revocable.try_write, hb] at hg
      cases hg
      exact hs
  · intro g v hg
    simpa [RevocableGuard.write, Inner.inv] using hg

/-- Witness for C4: the invariant survives revoking a fresh cell holding 42. -/
theorem inv_preserved_witness : (((Inner.new (42 : Nat)).drop_in_place).1).inv :=
  (inv_preserved (T := Nat)).2.1 (Inner.new 42) (by simp [Inner.new, Inner.inv])

/-- Claim C5: on a fresh cell created with 42, `try_write` returns a guard
whose dereference reads 42; after dropping that guard and revoking,
`try_write` returns `none`.  In general a guard obtained from a cell created
with `v` dereferences to `v`. -/
theorem scenario_create_access_revoke :
    ((Revocable.try_write (Inner.new (42 : Nat))).2.map RevocableGuard.deref =
        some (some 42)) ∧
    ((Revocable.try_write
        ((Revocable.revoke
          ((Revocable.try_write (Inner.new (42 : Nat))).1)).1)).2 = none) ∧
    (∀ (T : Type) (v : T),
      (Revocable.try_write (Inner.new v)).2.map RevocableGuard.deref =
        some (some v)) := by
  refine ⟨rfl, rfl, ?_⟩
  intro T v
  rfl

/-- Claim C6: a fresh cell is Available; `revoke` on an available cell
transitions it to Revoked; and along every step of the system, a revoked cell
stays revoked — no operation ever sets `is_available` back to `true`, so the
Available → Revoked transition happens at most once. -/
theorem availability_state_machine {T : Type} :
    (∀ v : T, (Inner.new v).is_available = true) ∧
    (∀ s : Inner T, s.is_available = true →
      ((Revocable.revoke s).1).is_available = false) ∧
    (∀ s s' : SysState T, Step s s' → s.inner.is_available = false →
      s'.inner.is_available = false) := by
  refine ⟨fun v => rfl, ?_, ?_⟩
  · intro s hb
    simp [Revocable.revoke, Inner.drop_in_place, hb]
  · intro s s' hs hf
    cases hs <;> simp_all [Inner.drop_in_place]

/-- Witness for C6: revoking a fresh available cell holding 42 makes it
unavailable. -/
theorem availability_state_machine_witness :
    ((Revocable.revoke (Inner.new (42 : Nat))).1).is_available = false :=
  (availability_state_machine (T := Nat)).2.1 (Inner.new 42) rfl

/-- Claim C7: under the type invariant the checked `drop_in_place` (with the
`assume_init_drop` undefined-behaviour case made explicit) never fails and
agrees with the total function, and on an already-revoked cell it returns
without touching `data` and without running any destructor. -/
theorem revoke_never_panics {T : Type} :
    (∀ s : Inner T, s.inv → s.dropInPlaceChecked = some s.drop_in_place) ∧
    (∀ s : Inner T, s.is_available = false →
      s.dropInPlaceChecked = some (s, false)) := by
  constructor
  · intro s hs
    by_cases hb : s.is_available = true
    · have hd : s.data.isSome = true := hs.mp hb
      obtain ⟨v, hv⟩ := Option.isSome_iff_exists.mp hd
      simp [Inner.dropInPlaceChecked, Inner.drop_in_place, hb, hv, assume_init_drop]
    · simp_all [Inner.dropInPlaceChecked, Inner.drop_in_place]
  · intro s hf
    simp [Inner.dropInPlaceChecked, hf]

/-- Witness for C7: the checked revoke succeeds on a fresh cell holding 5. -/
theorem revoke_never_panics_witness :
    (Inner.new (5 : Nat)).dropInPlaceChecked =
      some ((Inner.new (5 : Nat)).drop_in_place) :=
  (revoke_never_panics (T := Nat)).1 (Inner.new 5) (by simp [Inner.new, Inner.inv])

/-- Claim C8: `try_write` is a non-mutating query: the protected state it
leaves behind equals the state before the call in both outcomes, and a
returned guard wraps exactly that state, so releasing it without writing
changes neither `is_available` nor the stored value. -/
theorem try_write_is_query {T : Type} :
    ∀ s : Inner T,
      (Revocable.try_write s).1 = s ∧
      ∀ g : RevocableGuard T, (Revocable.try_write s).2 = some g → g.guard = s := by
  intro s
  constructor
  · by_cases hb : s.is_available = true <;> simp [Revocable.try_write, hb]
  · intro g hg
    by_cases hb : s.is_available = true <;>
      simp [Revocable.try_write, hb] at hg
    cases hg
    rfl

/-- Witness for C8: on a fresh cell holding 7, `try_write` leaves the state
unchanged and the returned guard wraps that same state. -/
theorem try_write_is_query_witness :
    (Revocable.try_write (Inner.new (7 : Nat))).1 = Inner.new 7 ∧
    (RevocableGuard.mk (Inner.new (7 : Nat))).guard = Inner.new 7 :=
  ⟨(try_write_is_query (Inner.new 7)).1,
   (try_write_is_query (Inner.new 7)).2 (RevocableGuard.mk (Inner.new 7)) rfl⟩


/-- Claim C9: for `l ≤ h ≤ 31`, `genmask h l` has bit `i` set if and only if
`l ≤ i ≤ h`, and no other bit set (the statement quantifies over every bit
position `i`). -/
theorem genmask_bits (h l i : Nat) (hl : l ≤ h) (hh : h ≤ 31) :
    (genmask h l).testBit i = decide (l ≤ i ∧ i ≤ h) := by
  have e1 : (1 : Nat) <<< l = 2 ^ l := Nat.one_shiftLeft l
  have hp : 2 ^ l ≤ 2 ^ 31 := Nat.pow_le_pow_right (by norm_num) (by omega)
  have hpos : 0 < 2 ^ l := Nat.two_pow_pos l
  have e2 : u32Max - 2 ^ l + 1 = 2 ^ l * (2 ^ (32 - l) - 1) := by
    have e3 : 2 ^ l * (2 ^ (32 - l) - 1) = 2 ^ 32 - 2 ^ l := by
      rw [Nat.mul_sub_left_distrib, ← Nat.pow_add, Nat.mul_one]
      congr 2
      omega
    rw [e3]
    unfold u32Max
    omega
  rw [genmask, e1, e2, show (32 : Nat) - 1 - h = 31 - h from rfl]
  rw [Nat.testBit_and, Nat.testBit_mul_pow_two, Nat.testBit_shiftRight]
  unfold u32Max
  rw [Nat.testBit_two_pow_sub_one, Nat.testBit_two_pow_sub_one]
  by_cases c1 : l ≤ i
  · by_cases c2 : i ≤ h
    · have d1 : i - l < 32 - l := by omega
      have d2 : 31 - h + i < 32 := by omega
      simp [ge_iff_le, c1, c2, d1, d2]
    · have d2 : ¬ (31 - h + i < 32) := by omega
      simp [c2, d2]
  · simp [ge_iff_le, c1]

/-- Witness for C9: bit 5 of `genmask 7 4` is set, matching `4 ≤ 5 ≤ 7`. -/
theorem genmask_bits_witness :
    4 ≤ 7 ∧ 7 ≤ 31 ∧ (genmask 7 4).testBit 5 = decide (4 ≤ 5 ∧ 5 ≤ 7) :=
  ⟨by decide, by decide, genmask_bits 7 4 5 (by decide) (by decide)⟩

/-- Claim C10: with every arithmetic step of the Rust expression checked,
`genmask` panics for every `h ≥ 32` or `l ≥ 32` (some shift amount or the
subtraction `32 - 1 - h` goes out of range), while inside the precondition
`h ≤ 31` and `l ≤ 31` every step stays in range — including the boundary
`h = 31`, where the right-shift amount is 0 — and the checked evaluation
returns exactly `genmask h l`. -/
theorem genmask_shift_precondition :
    (∀ h l : Nat, 32 ≤ h ∨ 32 ≤ l → genmaskChecked h l = none) ∧
    (∀ h l : Nat, h ≤ 31 → l ≤ 31 → genmaskChecked h l = some (genmask h l)) := by
  constructor
  · intro h l hc
    by_cases hb : 32 ≤ l
    · have s1 : shlChecked 1 l = none := by
        unfold shlChecked
        rw [if_pos hb]
      unfold genmaskChecked
      rw [s1]
      rfl
    · have ha : 32 ≤ h := by omega
      have e1 : (1 : Nat) <<< l = 2 ^ l := Nat.one_shiftLeft l
      have hple : 2 ^ l ≤ 2 ^ 31 := Nat.pow_le_pow_right (by norm_num) (by omega)
      have hpos : 0 < 2 ^ l := Nat.two_pow_pos l
      have s1 : shlChecked 1 l = some (2 ^ l) := by
        unfold shlChecked
        rw [if_neg hb, e1]
        exact congrArg some (Nat.mod_eq_of_lt (by omega))
      have s2 : subChecked u32Max (2 ^ l) = some (u32Max - 2 ^ l) := by
        unfold subChecked
        rw [if_neg (show ¬ (u32Max < 2 ^ l) by unfold u32Max; omega)]
      have s3 : addChecked (u32Max - 2 ^ l) 1 = some (u32Max - 2 ^ l + 1) := by
        unfold addChecked
        rw [if_neg (show ¬ (2 ^ 32 ≤ u32Max - 2 ^ l + 1) by unfold u32Max; omega)]
      have s4 : subChecked (32 - 1) h = none := by
        unfold subChecked
        rw [if_pos (show (32 : Nat) - 1 < h by omega)]
      unfold genmaskChecked
      rw [s1]
      simp only [Option.some_bind]
      rw [s2]
      simp only [Option.some_bind]
      rw [s3]
      simp only [Option.some_bind]
      rw [s4]
      rfl
  · intro h l ha hb
    have e1 : (1 : Nat) <<< l = 2 ^ l := Nat.one_shiftLeft l
    have hple : 2 ^ l ≤ 2 ^ 31 := Nat.pow_le_pow_right (by norm_num) hb
    have hpos : 0 < 2 ^ l := Nat.two_pow_pos l
    have nb : ¬ (32 ≤ l) := by omega
    have s1 : shlChecked 1 l = some (2 ^ l) := by
      unfold shlChecked
      rw [if_neg nb, e1]
      exact congrArg some (Nat.mod_eq_of_lt (by omega))
    have s2 : subChecked u32Max (2 ^ l) = some (u32Max - 2 ^ l) := by
      unfold subChecked
      rw [if_neg (show ¬ (u32Max < 2 ^ l) by unfold u32Max; omega)]
    have s3 : addChecked (u32Max - 2 ^ l) 1 = some (u32Max - 2 ^ l + 1) := by
      unfold addChecked
      rw [if_neg (show ¬ (2 ^ 32 ≤ u32Max - 2 ^ l + 1) by unfold u32Max; omega)]
    have s4 : subChecked (32 - 1) h = some (32 - 1 - h) := by
      unfold subChecked
      rw [if_neg (show ¬ ((32 : Nat) - 1 < h) by omega)]
    have s5 : shrChecked u32Max (32 - 1 - h) = some (u32Max >>> (32 - 1 - h)) := by
      unfold shrChecked
      rw [if_neg (show ¬ (32 ≤ 32 - 1 - h) by omega)]
    unfold genmaskChecked
    rw [s1]
    simp only [Option.some_bind]
    rw [s2]
    simp only [Option.some_bind]
    rw [s3]
    simp only [Option.some_bind]
    rw [s4]
    simp only [Option.some_bind]
    rw [s5]
    simp only [Option.some_bind]
    unfold genmask
    rw [e1]

/-- Witness for C10: `h = 32` panics, while the in-range boundary `h = 31`,
`l = 0` evaluates to exactly `genmask 31 0`. -/
theorem genmask_shift_precondition_witness :
    genmaskChecked 32 0 = none ∧ genmaskChecked 31 0 = some (genmask 31 0) :=
  ⟨genmask_shift_precondition.1 32 0 (Or.inl (by decide)),
   genmask_shift_precondition.2 31 0 (by decide) (by decide)⟩

end Kernel
